import Mathlib

set_option linter.unreachableTactic false
set_option linter.unusedTactic false

/-!
Shallow embedding of `src/aggregation/agg_req_with_accessor.rs` (tantivy's
aggregation binding layer): the code that resolves a logical aggregation
request tree, per segment, into a tree of nodes holding fast-field column
accessors.

Types that live outside the embedded file (the columnar store, the request
types from `agg_req.rs`, the limits from `agg_limits.rs`) are modelled from
the spec, as marked on each definition.
-/

namespace TantivyAgg

/-- Physical column value types, mirroring `columnar::ColumnType`. -/
inductive ColumnType where
  | I64
  | U64
  | F64
  | Bytes
  | Str
  | Bool
  | IpAddr
  | DateTime
deriving DecidableEq, Repr

/-- Modelled from the spec: a fast-field column is a columnar, random-access
encoding of one field's values across all documents in a segment.  We keep,
per document, the (possibly empty) list of its u64 values. -/
structure Column where
  docValues : List (List Nat)
deriving DecidableEq, Repr

/-- Number of documents covered by the column. -/
def Column.num_docs (c : Column) : Nat := c.docValues.length

/-- `Column::build_empty_column(num_docs)`: a column of the given length in
which every document reports no value. -/
def Column.build_empty_column (num_docs : Nat) : Column :=
  ⟨List.replicate num_docs []⟩

/-- The values the column reports for one document (empty = "no value"). -/
def Column.values_for_doc (c : Column) (doc : Nat) : List Nat :=
  (c.docValues.get? doc).getD []

/-- Modelled from the spec: an ordinal→term dictionary column handle. -/
structure StrColumn where
  dict : List String
deriving DecidableEq, Repr

/-- Modelled from the spec: the decode scratch buffer
(`columnar::ColumnBlockAccessor`), empty/default at bind time. -/
structure ColumnBlockAccessor where
  buffer : List Nat
deriving DecidableEq, Repr

/-- `Default::default()` for the scratch buffer. -/
def ColumnBlockAccessor.default : ColumnBlockAccessor := ⟨[]⟩

/-- Errors surfaced by binding.  `storage f` models a storage-layer
(`crate::Result`) fault while resolving field `f`; `unwrapNone` models the
panic of `Option::unwrap` on `None` (line 85 of the source). -/
inductive BindError where
  | storage (field : String)
  | unwrapNone
deriving DecidableEq, Repr

/-- Modelled from the spec: the per-segment column-access provider.  It
exposes lookup of all columns by field name and allowed-type filter, a
string-dictionary lookup, and the segment's document count.  Storage faults
are represented by the fields listed in `column_errors` / `str_errors`. -/
structure SegmentReader where
  num_docs : Nat
  columns : List (String × ColumnType × Column)
  str_columns : List (String × StrColumn)
  column_errors : List String
  str_errors : List String
deriving Repr

/-- Whether a stored column entry matches a field name and an optional
allowed-type filter. -/
def column_matches (field : String) (allowed : Option (List ColumnType))
    (entry : String × ColumnType × Column) : Bool :=
  decide (entry.1 = field) &&
    match allowed with
    | none => true
    | some ts => decide (entry.2.1 ∈ ts)

/-- Modelled from the spec: all-matching-columns lookup
(`ff_fields.u64_lenient_for_type_all`), returning every physical column for
the field whose type passes the filter, in store order. -/
def u64_lenient_for_type_all (reader : SegmentReader)
    (allowed : Option (List ColumnType)) (field : String) :
    Except BindError (List (Column × ColumnType)) :=
  if field ∈ reader.column_errors then .error (.storage field)
  else .ok ((reader.columns.filter (column_matches field allowed)).map
    (fun e => (e.2.2, e.2.1)))

/-- Modelled from the spec: single/best-column lookup
(`ff_fields.u64_lenient_for_type`); returns the best (here: first) matching
column, if any. -/
def u64_lenient_for_type (reader : SegmentReader)
    (allowed : Option (List ColumnType)) (field : String) :
    Except BindError (Option (Column × ColumnType)) :=
  match u64_lenient_for_type_all reader allowed field with
  | .error e => .error e
  | .ok l => .ok l.head?

/-- Modelled from the spec: string-dictionary lookup
(`reader.fast_fields().str(field)`), optional result, absent if the field
has no dictionary. -/
def str_dict_lookup (reader : SegmentReader) (field : String) :
    Except BindError (Option StrColumn) :=
  if field ∈ reader.str_errors then .error (.storage field)
  else .ok ((reader.str_columns.find? (fun e => decide (e.1 = field))).map
    (fun e => e.2))

/-- Modelled from the spec: the resource-limit configuration
(`AggregationLimits`), an immutable, cloneable value. -/
structure AggregationLimits where
  memory_limit : Nat
  bucket_limit : Nat
deriving DecidableEq, Repr

/-- Modelled from the spec: a node-local resource accounting object
(`ResourceLimitGuard`).  `guard_id` makes instance identity observable in
the pure embedding: each freshly instantiated guard receives a fresh id. -/
structure ResourceLimitGuard where
  guard_id : Nat
  memory_limit : Nat
  bucket_limit : Nat
  memory_consumed : Nat
deriving DecidableEq, Repr

/-- Modelled from the spec: `limits.new_guard()` instantiates a fresh,
independent guard from the configuration.  Freshness is made observable by
threading an allocation counter: the returned counter is the next free id. -/
def AggregationLimits.new_guard (limits : AggregationLimits) (next_id : Nat) :
    ResourceLimitGuard × Nat :=
  (⟨next_id, limits.memory_limit, limits.bucket_limit, 0⟩, next_id + 1)

/-- Modelled from the spec: mutating a guard's counters during execution
(memory accounting). -/
def ResourceLimitGuard.add_memory (g : ResourceLimitGuard) (amount : Nat) :
    ResourceLimitGuard :=
  { g with memory_consumed := g.memory_consumed + amount }

/-- Modelled from the spec: the per-variant request structs of `agg_req.rs`
(`RangeAggregation`, …).  Binding reads only the `field` name from each
(the source matches the remaining parameters with `..`). -/
structure RangeAggregation where
  field : String
deriving DecidableEq, Repr

/-- Modelled from the spec: see `RangeAggregation`. -/
structure HistogramAggregation where
  field : String
deriving DecidableEq, Repr

/-- Modelled from the spec: see `RangeAggregation`. -/
structure DateHistogramAggregationReq where
  field : String
deriving DecidableEq, Repr

/-- Modelled from the spec: see `RangeAggregation`. -/
structure TermsAggregation where
  field : String
deriving DecidableEq, Repr

/-- Modelled from the spec: see `RangeAggregation`. -/
structure AverageAggregation where
  field : String
deriving DecidableEq, Repr

/-- Modelled from the spec: see `RangeAggregation`. -/
structure CountAggregation where
  field : String
deriving DecidableEq, Repr

/-- Modelled from the spec: see `RangeAggregation`. -/
structure MaxAggregation where
  field : String
deriving DecidableEq, Repr

/-- Modelled from the spec: see `RangeAggregation`. -/
structure MinAggregation where
  field : String
deriving DecidableEq, Repr

/-- Modelled from the spec: see `RangeAggregation`. -/
structure StatsAggregation where
  field : String
deriving DecidableEq, Repr

/-- Modelled from the spec: see `RangeAggregation`. -/
structure SumAggregation where
  field : String
deriving DecidableEq, Repr

/-- Modelled from the spec: percentiles request; the source reads the field
through `percentiles.field_name()`. -/
structure PercentilesAggregationReq where
  field : String
deriving DecidableEq, Repr

/-- `PercentilesAggregationReq::field_name`. -/
def PercentilesAggregationReq.field_name (p : PercentilesAggregationReq) :
    String := p.field

/-- Modelled from the spec: the closed set of aggregation request variants
(`AggregationVariants` of `agg_req.rs`). -/
inductive AggregationVariants where
  | Range (r : RangeAggregation)
  | Histogram (h : HistogramAggregation)
  | DateHistogram (d : DateHistogramAggregationReq)
  | Terms (t : TermsAggregation)
  | Average (a : AverageAggregation)
  | Count (c : CountAggregation)
  | Max (m : MaxAggregation)
  | Min (m : MinAggregation)
  | Stats (s : StatsAggregation)
  | Sum (s : SumAggregation)
  | Percentiles (p : PercentilesAggregationReq)
deriving DecidableEq, Repr

/-- Modelled from the spec: one aggregation request: a variant plus its
owned, order-preserving tree of named sub-aggregation requests
(`Aggregation` of `agg_req.rs`; the spec fixes the name→request mapping as
order-preserving). -/
structure Aggregation where
  agg : AggregationVariants
  sub_aggregation : List (String × Aggregation)

/-- Modelled from the spec: `Aggregations`, the ordered name→request map. -/
abbrev Aggregations := List (String × Aggregation)

/-- A bound node (`AggregationWithAccessor`): resolved accessor(s), type
tag, optional string dictionary, guard, scratch buffer, bound sub-tree and
a copy of the request.  The sub-tree is kept as the underlying named list
(`VecWithNames` entries) of the source's `AggregationsWithAccessor`. -/
structure AggregationWithAccessor where
  accessor : Column
  str_dict_column : Option StrColumn
  field_type : ColumnType
  accessor2 : Option (Column × ColumnType)
  sub_aggregation : List (String × AggregationWithAccessor)
  limits : ResourceLimitGuard
  column_block_accessor : ColumnBlockAccessor
  agg : Aggregation

/-- `AggregationsWithAccessor`: the bound tree, wrapping the order-preserving
named node list (`VecWithNames`, modelled from the spec as an insertion-order
preserving association list). -/
structure AggregationsWithAccessor where
  aggs : List (String × AggregationWithAccessor)

/-- `AggregationsWithAccessor::from_data`. -/
def AggregationsWithAccessor.from_data
    (aggs : List (String × AggregationWithAccessor)) :
    AggregationsWithAccessor :=
  ⟨aggs⟩

/-- `AggregationsWithAccessor::is_empty`. -/
def AggregationsWithAccessor.is_empty (a : AggregationsWithAccessor) : Bool :=
  a.aggs.isEmpty

/-- `get_numeric_or_date_column_types` (source lines 137–144). -/
def get_numeric_or_date_column_types : List ColumnType :=
  [ColumnType.F64, ColumnType.U64, ColumnType.I64, ColumnType.DateTime]

/-- The `allowed_column_types` array of the `Terms` branch (source lines
73–82): I64, U64, F64, Str; Bytes/Bool/IpAddr/DateTime unsupported. -/
def terms_allowed_column_types : List ColumnType :=
  [ColumnType.I64, ColumnType.U64, ColumnType.F64, ColumnType.Str]

/-- `get_ff_reader` (source lines 169–184): single column lookup, or an
empty column of the segment's document count tagged `U64` as default. -/
def get_ff_reader (reader : SegmentReader) (field_name : String)
    (allowed_column_types : Option (List ColumnType)) :
    Except BindError (Column × ColumnType) :=
  match u64_lenient_for_type reader allowed_column_types field_name with
  | .error e => .error e
  | .ok r =>
      .ok (r.getD (Column.build_empty_column reader.num_docs, ColumnType.U64))

/-- `get_all_ff_reader_or_empty` (source lines 189–204): all matching
columns; if none, one empty `U64` column is pushed so the result is
guaranteed non-empty. -/
def get_all_ff_reader_or_empty (reader : SegmentReader) (field_name : String)
    (allowed_column_types : Option (List ColumnType)) :
    Except BindError (List (Column × ColumnType)) :=
  match u64_lenient_for_type_all reader allowed_column_types field_name with
  | .error e => .error e
  | .ok l =>
      .ok (if l.isEmpty
        then [(Column.build_empty_column reader.num_docs, ColumnType.U64)]
        else l)

/-- The accessor-resolution `match` of `try_from_agg` (source lines 56–108),
hoisted into a helper: for each variant it returns the optional string
dictionary, the primary accessor and type, and the optional secondary
accessor.  In the `Terms` branch the source pops the columns vector twice:
`Vec::pop` removes from the END, so the primary is the last returned column
and the secondary the one before it; popping an empty vector would be the
`unwrap` panic, modelled as `BindError.unwrapNone`. -/
def resolve_accessors (variant : AggregationVariants)
    (reader : SegmentReader) :
    Except BindError
      (Option StrColumn × Column × ColumnType × Option (Column × ColumnType)) :=
  match variant with
  | .Range ⟨field_name⟩ =>
      match get_ff_reader reader field_name
          (some get_numeric_or_date_column_types) with
      | .error e => .error e
      | .ok (a, t) => .ok (none, a, t, none)
  | .Histogram ⟨field_name⟩ =>
      match get_ff_reader reader field_name
          (some get_numeric_or_date_column_types) with
      | .error e => .error e
      | .ok (a, t) => .ok (none, a, t, none)
  | .DateHistogram ⟨field_name⟩ =>
      match get_ff_reader reader field_name
          (some get_numeric_or_date_column_types) with
      | .error e => .error e
      | .ok (a, t) => .ok (none, a, t, none)
  | .Terms ⟨field_name⟩ =>
      match str_dict_lookup reader field_name with
      | .error e => .error e
      | .ok str_dict_column =>
          match get_all_ff_reader_or_empty reader field_name
              (some terms_allowed_column_types) with
          | .error e => .error e
          | .ok columns =>
              match columns.getLast? with
              | none => .error .unwrapNone
              | some first =>
                  .ok (str_dict_column, first.1, first.2,
                    columns.dropLast.getLast?)
  | .Average ⟨field_name⟩ =>
      match get_ff_reader reader field_name
          (some get_numeric_or_date_column_types) with
      | .error e => .error e
      | .ok (a, t) => .ok (none, a, t, none)
  | .Count ⟨field_name⟩ =>
      match get_ff_reader reader field_name
          (some get_numeric_or_date_column_types) with
      | .error e => .error e
      | .ok (a, t) => .ok (none, a, t, none)
  | .Max ⟨field_name⟩ =>
      match get_ff_reader reader field_name
          (some get_numeric_or_date_column_types) with
      | .error e => .error e
      | .ok (a, t) => .ok (none, a, t, none)
  | .Min ⟨field_name⟩ =>
      match get_ff_reader reader field_name
          (some get_numeric_or_date_column_types) with
      | .error e => .error e
      | .ok (a, t) => .ok (none, a, t, none)
  | .Stats ⟨field_name⟩ =>
      match get_ff_reader reader field_name
          (some get_numeric_or_date_column_types) with
      | .error e => .error e
      | .ok (a, t) => .ok (none, a, t, none)
  | .Sum ⟨field_name⟩ =>
      match get_ff_reader reader field_name
          (some get_numeric_or_date_column_types) with
      | .error e => .error e
      | .ok (a, t) => .ok (none, a, t, none)
  | .Percentiles percentiles =>
      match get_ff_reader reader percentiles.field_name
          (some get_numeric_or_date_column_types) with
      | .error e => .error e
      | .ok (a, t) => .ok (none, a, t, none)

/-- Size helper for the termination of the mutual binder recursion. -/
theorem Aggregation.sizeOf_sub_aggregation_lt (agg : Aggregation) :
    sizeOf agg.sub_aggregation < sizeOf agg := by
  cases agg
  simp

mutual

/-- `AggregationWithAccessor::try_from_agg` (source lines 50–125): resolve
the accessors for the variant, recursively bind the sub-aggregations, then
assemble the node with a freshly instantiated guard and a default scratch
buffer.  `next_guard_id` threads guard-instance freshness. -/
def AggregationWithAccessor.try_from_agg (agg : Aggregation)
    (sub_aggregation : Aggregations) (reader : SegmentReader)
    (limits : AggregationLimits) (next_guard_id : Nat) :
    Except BindError (AggregationWithAccessor × Nat) :=
  match resolve_accessors agg.agg reader with
  | .error e => .error e
  | .ok (str_dict_column, accessor, field_type, accessor2) =>
      match get_aggs_with_segment_accessor_and_validate sub_aggregation
          reader limits next_guard_id with
      | .error e => .error e
      | .ok (sub, n1) =>
          .ok (⟨accessor, str_dict_column, field_type, accessor2, sub.aggs,
            (limits.new_guard n1).1, ColumnBlockAccessor.default, agg⟩,
            (limits.new_guard n1).2)
termination_by (sizeOf sub_aggregation, 1)

/-- `get_aggs_with_segment_accessor_and_validate` (source lines 146–166):
bind each named request in iteration order, propagating the first error,
and wrap the entries into the order-preserving bound tree. -/
def get_aggs_with_segment_accessor_and_validate (aggs : Aggregations)
    (reader : SegmentReader) (limits : AggregationLimits)
    (next_guard_id : Nat) :
    Except BindError (AggregationsWithAccessor × Nat) :=
  match aggs with
  | [] => .ok (AggregationsWithAccessor.from_data [], next_guard_id)
  | (key, agg) :: rest =>
      match AggregationWithAccessor.try_from_agg agg agg.sub_aggregation
          reader limits next_guard_id with
      | .error e => .error e
      | .ok (node, n1) =>
          match get_aggs_with_segment_accessor_and_validate rest reader
              limits n1 with
          | .error e => .error e
          | .ok (t, n2) =>
              .ok (AggregationsWithAccessor.from_data ((key, node) :: t.aggs),
                n2)
termination_by (sizeOf aggs, 0)
decreasing_by
  all_goals simp_wf
  all_goals
    (first
      | omega
      | (have hs := Aggregation.sizeOf_sub_aggregation_lt agg; omega))

end

/-- `AggregationWithAccessor::swap_accessor` (source lines 129–134): if a
secondary accessor is present, exchange (accessor, field_type) with it in
place; otherwise do nothing. -/
def AggregationWithAccessor.swap_accessor (s : AggregationWithAccessor) :
    AggregationWithAccessor :=
  match s.accessor2 with
  | some a2 =>
      { s with
        accessor := a2.1
        field_type := a2.2
        accessor2 := some (s.accessor, s.field_type) }
  | none => s

/-! ### Observers used by the statements -/

/-- The field name an aggregation variant binds against. -/
def field_of : AggregationVariants → String
  | .Range r => r.field
  | .Histogram h => h.field
  | .DateHistogram d => d.field
  | .Terms t => t.field
  | .Average a => a.field
  | .Count c => c.field
  | .Max m => m.field
  | .Min m => m.field
  | .Stats s => s.field
  | .Sum s => s.field
  | .Percentiles p => p.field_name

/-- Whether a variant is the terms aggregation. -/
def is_terms : AggregationVariants → Bool
  | .Terms _ => true
  | _ => false

/-- The allowed-column-type filter the binder's dispatch passes to the
resolver for each variant. -/
def allowed_types_of (v : AggregationVariants) : List ColumnType :=
  if is_terms v then terms_allowed_column_types
  else get_numeric_or_date_column_types

/-- The nested name tree of a request or bound tree: names with their order
and nesting, nothing else. -/
inductive NameShape where
  | node (entries : List (String × NameShape))

/-- Size helper for recursion over the bound-node structure. -/
theorem AggregationWithAccessor.sizeOf_sub_tree_lt
    (node : AggregationWithAccessor) :
    sizeOf node.sub_aggregation < sizeOf node := by
  cases node
  simp
  omega

mutual

/-- Name shape of one aggregation request. -/
def req_shape (agg : Aggregation) : NameShape :=
  .node (req_shape_list agg.sub_aggregation)
termination_by (sizeOf agg, 1)
decreasing_by
  simp_wf
  have hs := Aggregation.sizeOf_sub_aggregation_lt agg
  omega

/-- Name shapes of a named request list, in order. -/
def req_shape_list (aggs : Aggregations) : List (String × NameShape) :=
  match aggs with
  | [] => []
  | (key, agg) :: rest => (key, req_shape agg) :: req_shape_list rest
termination_by (sizeOf aggs, 0)
decreasing_by
  all_goals simp_wf
  all_goals
    (first
      | omega
      | (have hs := Aggregation.sizeOf_sub_aggregation_lt agg; omega))

end

mutual

/-- Name shape of one bound node. -/
def bound_shape (node : AggregationWithAccessor) : NameShape :=
  .node (bound_shape_list node.sub_aggregation)
termination_by (sizeOf node, 1)
decreasing_by
  simp_wf
  have hs := AggregationWithAccessor.sizeOf_sub_tree_lt node
  omega

/-- Name shapes of a named bound-node list, in order. -/
def bound_shape_list (nodes : List (String × AggregationWithAccessor)) :
    List (String × NameShape) :=
  match nodes with
  | [] => []
  | (key, node) :: rest => (key, bound_shape node) :: bound_shape_list rest
termination_by (sizeOf nodes, 0)
decreasing_by
  all_goals simp_wf
  all_goals
    (first
      | omega
      | (have hs := AggregationWithAccessor.sizeOf_sub_tree_lt node; omega))

end

mutual

/-- All guard ids appearing in a bound node, own guard first. -/
def guard_ids (node : AggregationWithAccessor) : List Nat :=
  node.limits.guard_id :: guard_ids_list node.sub_aggregation
termination_by (sizeOf node, 1)
decreasing_by
  simp_wf
  have hs := AggregationWithAccessor.sizeOf_sub_tree_lt node
  omega

/-- All guard ids appearing in a named bound-node list. -/
def guard_ids_list (nodes : List (String × AggregationWithAccessor)) :
    List Nat :=
  match nodes with
  | [] => []
  | (_, node) :: rest => guard_ids node ++ guard_ids_list rest
termination_by (sizeOf nodes, 0)
decreasing_by
  all_goals simp_wf
  all_goals
    (first
      | omega
      | (have hs := AggregationWithAccessor.sizeOf_sub_tree_lt node; omega))

end

/-- Whether resolving this one variant against the reader can hit a
storage-layer fault: terms consults the string dictionary and the column
store, every other variant only the column store. -/
def variant_storage_error (reader : SegmentReader)
    (v : AggregationVariants) : Bool :=
  (is_terms v && decide (field_of v ∈ reader.str_errors)) ||
    decide (field_of v ∈ reader.column_errors)

mutual

/-- Whether any node of this request (itself or a descendant) hits a
storage-layer fault on this reader. -/
def tree_storage_error (reader : SegmentReader) (agg : Aggregation) : Bool :=
  variant_storage_error reader agg.agg ||
    tree_storage_error_list reader agg.sub_aggregation
termination_by (sizeOf agg, 1)
decreasing_by
  simp_wf
  have hs := Aggregation.sizeOf_sub_aggregation_lt agg
  omega

/-- Whether any request in the named list hits a storage-layer fault. -/
def tree_storage_error_list (reader : SegmentReader) (aggs : Aggregations) :
    Bool :=
  match aggs with
  | [] => false
  | (_, agg) :: rest =>
      tree_storage_error reader agg || tree_storage_error_list reader rest
termination_by (sizeOf aggs, 0)
decreasing_by
  all_goals simp_wf
  all_goals
    (first
      | omega
      | (have hs := Aggregation.sizeOf_sub_aggregation_lt agg; omega))

end

/-- Allowed-type sets, following the spec's words (refinement targets, to be
compared with the type lists taken from the source): the numeric-or-date set
"{floating-point, unsigned integer, signed integer, date-time}". -/
def spec_numeric_or_date_types : List ColumnType :=
  [ColumnType.F64, ColumnType.U64, ColumnType.I64, ColumnType.DateTime]

/-- Allowed-type set, following the spec's words (refinement target): the
terms set "{signed integer, unsigned integer, floating-point, string}". -/
def spec_terms_types : List ColumnType :=
  [ColumnType.I64, ColumnType.U64, ColumnType.F64, ColumnType.Str]

/-! ### Sample data for concrete witnesses -/

/-- A segment with one document whose field "color" is materialized both as
a signed-integer column and as a string column (store order: I64 first). -/
def reader_two_cols : SegmentReader :=
  { num_docs := 1
    columns := [("color", ColumnType.I64, ⟨[[1]]⟩),
                ("color", ColumnType.Str, ⟨[[0]]⟩)]
    str_columns := [("color", ⟨["red"]⟩)]
    column_errors := []
    str_errors := [] }

/-- A segment with ten documents and no columns at all. -/
def reader_empty10 : SegmentReader :=
  { num_docs := 10, columns := [], str_columns := [],
    column_errors := [], str_errors := [] }

/-- A segment whose field "price" hits a storage fault on column lookup. -/
def reader_err : SegmentReader :=
  { num_docs := 1, columns := [], str_columns := [],
    column_errors := ["price"], str_errors := [] }

/-- A sample limit configuration. -/
def limits_sample : AggregationLimits := ⟨100, 10⟩

/-- A terms aggregation request on "color" with no sub-aggregations. -/
def terms_color : Aggregation := ⟨.Terms ⟨"color"⟩, []⟩

/-- An average aggregation request on "price" with no sub-aggregations. -/
def avg_price : Aggregation := ⟨.Average ⟨"price"⟩, []⟩

/-- A two-level request tree: a terms aggregation with a nested average,
followed by a count. -/
def nested_req : Aggregations :=
  [("outer", ⟨.Terms ⟨"color"⟩, [("inner", ⟨.Average ⟨"price"⟩, []⟩)]⟩),
   ("second", ⟨.Count ⟨"price"⟩, []⟩)]

/-! ### Helper lemmas about columns and the resolvers -/

/-- The synthesized empty column has exactly the requested length. -/
theorem build_empty_column_num_docs (n : Nat) :
    (Column.build_empty_column n).num_docs = n := by
  simp [Column.build_empty_column, Column.num_docs]

/-- The synthesized empty column reports no value for every document. -/
theorem build_empty_column_values (n doc : Nat) :
    (Column.build_empty_column n).values_for_doc doc = [] := by
  simp only [Column.build_empty_column, Column.values_for_doc]
  rcases h : (List.replicate n ([] : List Nat)).get? doc with _ | v
  · rfl
  · have := List.get?_mem h
    simp only [List.eq_of_mem_replicate this]
    rfl

/-- A type selected by the store filter is in the allowed list. -/
theorem u64_all_mem_types (reader : SegmentReader) (ts : List ColumnType)
    (field : String) (l : List (Column × ColumnType))
    (h : u64_lenient_for_type_all reader (some ts) field = .ok l) :
    ∀ p ∈ l, p.2 ∈ ts := by
  unfold u64_lenient_for_type_all at h
  by_cases hf : field ∈ reader.column_errors
  · simp [hf] at h
  · simp only [hf, if_false] at h
    cases h
    intro p hp
    rw [List.mem_map] at hp
    obtain ⟨e, he, hpe⟩ := hp
    have hm := List.of_mem_filter he
    simp only [column_matches, Bool.and_eq_true, decide_eq_true_eq] at hm
    rw [← hpe]
    exact hm.2

/-- The all-columns resolver fails exactly on a storage fault. -/
theorem u64_all_isOk (reader : SegmentReader)
    (allowed : Option (List ColumnType)) (field : String) :
    (u64_lenient_for_type_all reader allowed field).isOk =
      !decide (field ∈ reader.column_errors) := by
  unfold u64_lenient_for_type_all
  by_cases hf : field ∈ reader.column_errors <;>
    simp [hf, Except.isOk, Except.toBool]

/-- The single-column resolver fails exactly on a storage fault. -/
theorem get_ff_reader_isOk (reader : SegmentReader) (field : String)
    (allowed : Option (List ColumnType)) :
    (get_ff_reader reader field allowed).isOk =
      !decide (field ∈ reader.column_errors) := by
  unfold get_ff_reader u64_lenient_for_type
  by_cases hf : field ∈ reader.column_errors <;>
    simp [u64_lenient_for_type_all, hf, Except.isOk, Except.toBool]

/-- The string-dictionary lookup fails exactly on a storage fault. -/
theorem str_dict_lookup_isOk (reader : SegmentReader) (field : String) :
    (str_dict_lookup reader field).isOk =
      !decide (field ∈ reader.str_errors) := by
  unfold str_dict_lookup
  by_cases hf : field ∈ reader.str_errors <;>
    simp [hf, Except.isOk, Except.toBool]

/-- `get_all_ff_reader_or_empty` fails exactly on a storage fault. -/
theorem get_all_isOk (reader : SegmentReader) (field : String)
    (allowed : Option (List ColumnType)) :
    (get_all_ff_reader_or_empty reader field allowed).isOk =
      !decide (field ∈ reader.column_errors) := by
  unfold get_all_ff_reader_or_empty u64_lenient_for_type_all
  by_cases hf : field ∈ reader.column_errors <;>
    simp [hf, Except.isOk, Except.toBool]

/-- A successful `get_all_ff_reader_or_empty` result is never empty. -/
theorem get_all_ne_nil (reader : SegmentReader) (field : String)
    (allowed : Option (List ColumnType)) (l : List (Column × ColumnType))
    (h : get_all_ff_reader_or_empty reader field allowed = .ok l) :
    l ≠ [] := by
  unfold get_all_ff_reader_or_empty at h
  cases hu : u64_lenient_for_type_all reader allowed field with
  | error e => rw [hu] at h; cases h
  | ok l0 =>
      rw [hu] at h
      cases h
      by_cases h0 : l0.isEmpty <;> simp [h0]
      intro hnil
      rw [hnil] at h0
      simp at h0

/-- The type of a single-column resolution is in the allowed list, or the
default `U64` of the synthesized empty column. -/
theorem get_ff_reader_type_mem (reader : SegmentReader) (field : String)
    (ts : List ColumnType) (r : Column × ColumnType)
    (h : get_ff_reader reader field (some ts) = .ok r) :
    r.2 ∈ ts ∨ r.2 = ColumnType.U64 := by
  unfold get_ff_reader at h
  cases hu : u64_lenient_for_type reader (some ts) field with
  | error e => rw [hu] at h; cases h
  | ok ro =>
      rw [hu] at h
      unfold u64_lenient_for_type at hu
      cases hall : u64_lenient_for_type_all reader (some ts) field with
      | error e => rw [hall] at hu; cases hu
      | ok l =>
          rw [hall] at hu
          cases hu
          cases hh : l.head? with
          | none =>
              rw [hh] at h
              cases h
              simp
          | some p =>
              rw [hh] at h
              cases h
              have hp : p ∈ l := List.mem_of_mem_head? hh
              simpa using Or.inl (u64_all_mem_types reader ts field l hall p hp)

/-- Every type in an all-columns resolution is in the allowed list, or the
default `U64` of the synthesized empty column. -/
theorem get_all_type_mem (reader : SegmentReader) (field : String)
    (ts : List ColumnType) (l : List (Column × ColumnType))
    (h : get_all_ff_reader_or_empty reader field (some ts) = .ok l) :
    ∀ p ∈ l, p.2 ∈ ts ∨ p.2 = ColumnType.U64 := by
  unfold get_all_ff_reader_or_empty at h
  cases hu : u64_lenient_for_type_all reader (some ts) field with
  | error e => rw [hu] at h; cases h
  | ok l0 =>
      rw [hu] at h
      cases h
      intro p hp
      by_cases h0 : l0.isEmpty
      · simp [h0] at hp
        simp [hp]
      · simp [h0] at hp
        exact Or.inl (u64_all_mem_types reader ts field l0 hu p hp)

/-- A failing single-column resolution reports the storage fault of the
looked-up field. -/
theorem get_ff_reader_error (reader : SegmentReader) (field : String)
    (allowed : Option (List ColumnType)) (e : BindError)
    (h : get_ff_reader reader field allowed = .error e) :
    e = .storage field := by
  unfold get_ff_reader u64_lenient_for_type u64_lenient_for_type_all at h
  by_cases hf : field ∈ reader.column_errors <;> simp [hf] at h
  exact h.symm

/-- A failing all-columns resolution reports the storage fault of the
looked-up field. -/
theorem get_all_error (reader : SegmentReader) (field : String)
    (allowed : Option (List ColumnType)) (e : BindError)
    (h : get_all_ff_reader_or_empty reader field allowed = .error e) :
    e = .storage field := by
  unfold get_all_ff_reader_or_empty u64_lenient_for_type_all at h
  by_cases hf : field ∈ reader.column_errors <;> simp [hf] at h
  exact h.symm

/-- A failing string-dictionary lookup reports the storage fault of the
looked-up field. -/
theorem str_dict_lookup_error (reader : SegmentReader) (field : String)
    (e : BindError) (h : str_dict_lookup reader field = .error e) :
    e = .storage field := by
  unfold str_dict_lookup at h
  by_cases hf : field ∈ reader.str_errors <;> simp [hf] at h
  exact h.symm

/-- When the store has no column matching the field under the allowed
types, the all-columns lookup succeeds with the empty list. -/
theorem u64_all_of_no_match (reader : SegmentReader) (ts : List ColumnType)
    (field : String) (hce : field ∉ reader.column_errors)
    (hmiss : reader.columns.filter (column_matches field (some ts)) = []) :
    u64_lenient_for_type_all reader (some ts) field = .ok [] := by
  unfold u64_lenient_for_type_all
  simp [hce, hmiss]

/-- `isOk` is preserved by `Except.map`. -/
theorem except_map_isOk {α β : Type} (f : α → β) (x : Except BindError α) :
    (Except.map f x).isOk = x.isOk := by
  cases x <;> rfl

/-- `Except.map` on a success value. -/
theorem except_map_ok {α β : Type} (f : α → β) (a : α) :
    (Except.ok a : Except BindError α).map f = Except.ok (f a) := rfl

/-- Evidence that a variant recognized as terms is a `Terms` request. -/
theorem is_terms_eq (v : AggregationVariants) (h : is_terms v = true) :
    ∃ tm, v = .Terms tm := by
  cases v <;> first | exact ⟨_, rfl⟩ | simp [is_terms] at h

/-- Master equation for every non-terms arm of the dispatch: the resolution
is the single-column lookup over the numeric-or-date types on the variant's
field, with no string dictionary and no secondary accessor. -/
theorem resolve_accessors_eq_nonterms (v : AggregationVariants)
    (reader : SegmentReader) (hnt : is_terms v = false) :
    resolve_accessors v reader =
      Except.map
        (fun p => ((none : Option StrColumn), p.1, p.2,
          (none : Option (Column × ColumnType))))
        (get_ff_reader reader (field_of v)
          (some get_numeric_or_date_column_types)) := by
  obtain ⟨⟨f⟩⟩ | ⟨⟨f⟩⟩ | ⟨⟨f⟩⟩ | ⟨⟨f⟩⟩ | ⟨⟨f⟩⟩ | ⟨⟨f⟩⟩ | ⟨⟨f⟩⟩ | ⟨⟨f⟩⟩ |
    ⟨⟨f⟩⟩ | ⟨⟨f⟩⟩ | ⟨⟨f⟩⟩ := v
  case Terms.mk => simp [is_terms] at hnt
  all_goals
    (simp only [resolve_accessors, field_of,
      PercentilesAggregationReq.field_name]
     cases hgx : get_ff_reader reader f (some get_numeric_or_date_column_types)
       with
     | error e => simp [hgx, Except.map]
     | ok p =>
         obtain ⟨a, t⟩ := p
         simp [hgx, Except.map])

/-- Master equation for the terms arm of the dispatch. -/
theorem resolve_accessors_eq_terms (tm : TermsAggregation)
    (reader : SegmentReader) :
    resolve_accessors (.Terms tm) reader =
      (match str_dict_lookup reader tm.field with
      | .error e => .error e
      | .ok str_dict_column =>
          match get_all_ff_reader_or_empty reader tm.field
              (some terms_allowed_column_types) with
          | .error e => .error e
          | .ok columns =>
              match columns.getLast? with
              | none => .error .unwrapNone
              | some first =>
                  .ok (str_dict_column, first.1, first.2,
                    columns.dropLast.getLast?)) := by
  obtain ⟨f⟩ := tm
  rfl

/-- The dispatch resolution fails exactly when the variant hits a
storage fault. -/
theorem resolve_accessors_isOk (v : AggregationVariants)
    (reader : SegmentReader) :
    (resolve_accessors v reader).isOk = !variant_storage_error reader v := by
  cases hv : is_terms v with
  | false =>
      rw [resolve_accessors_eq_nonterms v reader hv, except_map_isOk,
        get_ff_reader_isOk]
      simp [variant_storage_error, hv]
  | true =>
      obtain ⟨tm, rfl⟩ := is_terms_eq v hv
      rw [resolve_accessors_eq_terms]
      have hstr := str_dict_lookup_isOk reader tm.field
      cases hs : str_dict_lookup reader tm.field with
      | error e =>
          rw [hs] at hstr
          simp only [Except.isOk, Except.toBool] at hstr ⊢
          simp [variant_storage_error, is_terms, field_of, ← hstr]
      | ok sd =>
          rw [hs] at hstr
          simp only [Except.isOk, Except.toBool] at hstr
          have hallok := get_all_isOk reader tm.field
            (some terms_allowed_column_types)
          cases hall : get_all_ff_reader_or_empty reader tm.field
              (some terms_allowed_column_types) with
          | error e =>
              rw [hall] at hallok
              simp only [Except.isOk, Except.toBool] at hallok ⊢
              simp [variant_storage_error, is_terms, field_of, ← hallok,
                ← hstr]
          | ok cols =>
              rw [hall] at hallok
              simp only [Except.isOk, Except.toBool] at hallok
              have hne := get_all_ne_nil reader tm.field
                (some terms_allowed_column_types) cols hall
              cases hl : cols.getLast? with
              | none => exact absurd (List.getLast?_eq_none_iff.mp hl) hne
              | some first =>
                  simp only [hl, Except.isOk, Except.toBool]
                  simp [variant_storage_error, is_terms, field_of, ← hallok,
                    ← hstr]

/-- A failing dispatch resolution reports the storage fault of the
variant's field: in particular the `unwrap` of the terms branch never
produces the panic value. -/
theorem resolve_accessors_error (v : AggregationVariants)
    (reader : SegmentReader) (e : BindError)
    (h : resolve_accessors v reader = .error e) :
    e = .storage (field_of v) := by
  cases hv : is_terms v with
  | false =>
      rw [resolve_accessors_eq_nonterms v reader hv] at h
      cases hg : get_ff_reader reader (field_of v)
          (some get_numeric_or_date_column_types) with
      | error e2 =>
          rw [hg] at h
          cases h
          exact get_ff_reader_error reader (field_of v) _ _ hg
      | ok p => rw [hg] at h; cases h
  | true =>
      obtain ⟨tm, rfl⟩ := is_terms_eq v hv
      rw [resolve_accessors_eq_terms] at h
      cases hs : str_dict_lookup reader tm.field with
      | error e2 =>
          rw [hs] at h
          cases h
          exact str_dict_lookup_error reader tm.field _ hs
      | ok sd =>
          rw [hs] at h
          cases hall : get_all_ff_reader_or_empty reader tm.field
              (some terms_allowed_column_types) with
          | error e2 =>
              rw [hall] at h
              cases h
              exact get_all_error reader tm.field _ _ hall
          | ok cols =>
              rw [hall] at h
              have hne := get_all_ne_nil reader tm.field
                (some terms_allowed_column_types) cols hall
              cases hl : cols.getLast? with
              | none => exact absurd (List.getLast?_eq_none_iff.mp hl) hne
              | some first => simp [hl] at h

/-- When the variant's field has no matching column and no storage fault,
the dispatch resolves to the synthesized empty column, tagged `U64`, with
no secondary accessor. -/
theorem resolve_accessors_missing (v : AggregationVariants)
    (reader : SegmentReader)
    (hce : field_of v ∉ reader.column_errors)
    (hse : field_of v ∉ reader.str_errors)
    (hmiss : reader.columns.filter
      (column_matches (field_of v) (some (allowed_types_of v))) = []) :
    ∃ sd, resolve_accessors v reader =
        .ok (sd, Column.build_empty_column reader.num_docs,
          ColumnType.U64, none) ∧
      (is_terms v = false → sd = none) := by
  cases hv : is_terms v with
  | false =>
      refine ⟨none, ?_, fun _ => rfl⟩
      rw [resolve_accessors_eq_nonterms v reader hv]
      have hall := u64_all_of_no_match reader get_numeric_or_date_column_types
        (field_of v) hce (by simpa [allowed_types_of, hv] using hmiss)
      unfold get_ff_reader u64_lenient_for_type
      rw [hall]
      rfl
  | true =>
      obtain ⟨tm, rfl⟩ := is_terms_eq v hv
      have hf : field_of (AggregationVariants.Terms tm) = tm.field := rfl
      refine ⟨(reader.str_columns.find?
        (fun e => decide (e.1 = tm.field))).map (fun e => e.2), ?_, ?_⟩
      · rw [resolve_accessors_eq_terms]
        have hsd : str_dict_lookup reader tm.field =
            .ok ((reader.str_columns.find?
              (fun e => decide (e.1 = tm.field))).map (fun e => e.2)) := by
          unfold str_dict_lookup
          rw [hf] at hse
          simp [hse]
        rw [hsd]
        have hall := u64_all_of_no_match reader terms_allowed_column_types
          tm.field (by rwa [hf] at hce)
          (by simpa [allowed_types_of, is_terms, hf] using hmiss)
        unfold get_all_ff_reader_or_empty
        rw [hall]
        rfl
      · intro hc
        simp [is_terms] at hc

/-- The type tag of a successful dispatch resolution always lies in the
allowed-type set of the variant's kind (the synthesized default `U64` also
belongs to both sets). -/
theorem resolve_accessors_type_mem (v : AggregationVariants)
    (reader : SegmentReader)
    (q : Option StrColumn × Column × ColumnType × Option (Column × ColumnType))
    (h : resolve_accessors v reader = .ok q) :
    q.2.2.1 ∈ allowed_types_of v := by
  cases hv : is_terms v with
  | false =>
      rw [resolve_accessors_eq_nonterms v reader hv] at h
      cases hg : get_ff_reader reader (field_of v)
          (some get_numeric_or_date_column_types) with
      | error e => rw [hg] at h; cases h
      | ok p =>
          rw [hg] at h
          cases h
          rcases get_ff_reader_type_mem reader (field_of v) _ p hg with hm | hU
          · simpa [allowed_types_of, hv] using hm
          · simp [allowed_types_of, hv, hU, get_numeric_or_date_column_types]
  | true =>
      obtain ⟨tm, rfl⟩ := is_terms_eq v hv
      rw [resolve_accessors_eq_terms] at h
      cases hs : str_dict_lookup reader tm.field with
      | error e => rw [hs] at h; cases h
      | ok sd =>
          rw [hs] at h
          cases hall : get_all_ff_reader_or_empty reader tm.field
              (some terms_allowed_column_types) with
          | error e => rw [hall] at h; cases h
          | ok cols =>
              rw [hall] at h
              cases hl : cols.getLast? with
              | none => simp [hl] at h
              | some first =>
                  simp only [hl] at h
                  cases h
                  have hmem : first ∈ cols := List.mem_of_mem_getLast? hl
                  rcases get_all_type_mem reader tm.field _ cols hall first
                    hmem with hm | hU
                  · simpa [allowed_types_of, is_terms] using hm
                  · simp [allowed_types_of, is_terms, hU,
                      terms_allowed_column_types]

/-! ### Structure preservation of the binder -/

mutual

/-- A successfully bound node's sub-tree has the name shape of the
sub-request list it was bound from. -/
theorem try_from_agg_shape_eq (agg : Aggregation) (sub : Aggregations)
    (reader : SegmentReader) (limits : AggregationLimits) (n : Nat)
    (node : AggregationWithAccessor) (n2 : Nat)
    (h : AggregationWithAccessor.try_from_agg agg sub reader limits n =
      .ok (node, n2)) :
    bound_shape_list node.sub_aggregation = req_shape_list sub := by
  rw [AggregationWithAccessor.try_from_agg] at h
  cases hr : resolve_accessors agg.agg reader with
  | error e => rw [hr] at h; cases h
  | ok q =>
      rw [hr] at h
      obtain ⟨sd, a, t, a2⟩ := q
      cases hs : get_aggs_with_segment_accessor_and_validate sub reader
          limits n with
      | error e => rw [hs] at h; cases h
      | ok p =>
          rw [hs] at h
          obtain ⟨subt, n1⟩ := p
          cases h
          exact get_aggs_shape_eq sub reader limits n subt n1 hs
termination_by (sizeOf sub, 1)

/-- A successfully bound tree has the name shape of the request list it was
bound from: same names, same order, same nesting. -/
theorem get_aggs_shape_eq (aggs : Aggregations) (reader : SegmentReader)
    (limits : AggregationLimits) (n : Nat) (t : AggregationsWithAccessor)
    (n2 : Nat)
    (h : get_aggs_with_segment_accessor_and_validate aggs reader limits n =
      .ok (t, n2)) :
    bound_shape_list t.aggs = req_shape_list aggs :=
  match aggs, h with
  | [], h => by
      rw [get_aggs_with_segment_accessor_and_validate] at h
      cases h
      simp [bound_shape_list, req_shape_list,
        AggregationsWithAccessor.from_data]
  | (key, agg) :: rest, h => by
      rw [get_aggs_with_segment_accessor_and_validate] at h
      cases htry : AggregationWithAccessor.try_from_agg agg
          agg.sub_aggregation reader limits n with
      | error e => rw [htry] at h; cases h
      | ok p =>
          rw [htry] at h
          obtain ⟨node, n1⟩ := p
          dsimp only at h
          cases hrest : get_aggs_with_segment_accessor_and_validate rest
              reader limits n1 with
          | error e => rw [hrest] at h; cases h
          | ok q =>
              rw [hrest] at h
              obtain ⟨t1, n3⟩ := q
              cases h
              show bound_shape_list ((key, node) :: t1.aggs) = _
              rw [bound_shape_list, req_shape_list, bound_shape, req_shape,
                try_from_agg_shape_eq agg agg.sub_aggregation reader limits n
                  node n1 htry,
                get_aggs_shape_eq rest reader limits n1 t1 _ hrest]
termination_by (sizeOf aggs, 0)
decreasing_by
  all_goals simp_wf
  all_goals
    (first
      | omega
      | (have hs := Aggregation.sizeOf_sub_aggregation_lt agg; omega))

end

/-! ### Success and failure of the binder -/

mutual

/-- Binding one node succeeds exactly when neither its own resolution nor
any resolution in its sub-tree hits a storage fault. -/
theorem try_from_agg_isOk (agg : Aggregation) (sub : Aggregations)
    (reader : SegmentReader) (limits : AggregationLimits) (n : Nat) :
    (AggregationWithAccessor.try_from_agg agg sub reader limits n).isOk =
      (!variant_storage_error reader agg.agg &&
        !tree_storage_error_list reader sub) := by
  rw [AggregationWithAccessor.try_from_agg]
  have hres := resolve_accessors_isOk agg.agg reader
  cases hr : resolve_accessors agg.agg reader with
  | error e =>
      rw [hr] at hres
      simp only [Except.isOk, Except.toBool] at hres ⊢
      rw [← hres]
      simp
  | ok q =>
      rw [hr] at hres
      simp only [Except.isOk, Except.toBool] at hres
      obtain ⟨sd, a, t, a2⟩ := q
      have hsub := get_aggs_isOk sub reader limits n
      cases hs : get_aggs_with_segment_accessor_and_validate sub reader
          limits n with
      | error e =>
          rw [hs] at hsub
          simp only [Except.isOk, Except.toBool] at hsub ⊢
          rw [← hres, ← hsub]
          simp
      | ok p =>
          rw [hs] at hsub
          obtain ⟨subt, n1⟩ := p
          simp only [Except.isOk, Except.toBool] at hsub ⊢
          rw [← hres, ← hsub]
          simp
termination_by (sizeOf sub, 1)

/-- Binding a tree succeeds exactly when no node anywhere in the request
list hits a storage fault. -/
theorem get_aggs_isOk (aggs : Aggregations) (reader : SegmentReader)
    (limits : AggregationLimits) (n : Nat) :
    (get_aggs_with_segment_accessor_and_validate aggs reader limits n).isOk =
      !tree_storage_error_list reader aggs :=
  match aggs with
  | [] => by
      rw [get_aggs_with_segment_accessor_and_validate,
        tree_storage_error_list]
      rfl
  | (key, agg) :: rest => by
      rw [get_aggs_with_segment_accessor_and_validate,
        tree_storage_error_list, tree_storage_error]
      have htr := try_from_agg_isOk agg agg.sub_aggregation reader limits n
      cases htry : AggregationWithAccessor.try_from_agg agg
          agg.sub_aggregation reader limits n with
      | error e =>
          rw [htry] at htr
          simp only [Except.isOk, Except.toBool] at htr ⊢
          cases hx : variant_storage_error reader agg.agg <;>
            cases hy : tree_storage_error_list reader agg.sub_aggregation <;>
              simp [hx, hy] at htr ⊢
      | ok p =>
          rw [htry] at htr
          obtain ⟨node, n1⟩ := p
          dsimp only
          simp only [Except.isOk, Except.toBool] at htr
          have hx : variant_storage_error reader agg.agg = false ∧
              tree_storage_error_list reader agg.sub_aggregation = false := by
            cases hx : variant_storage_error reader agg.agg <;>
              cases hy : tree_storage_error_list reader agg.sub_aggregation <;>
                simp [hx, hy] at htr ⊢
          have hrest := get_aggs_isOk rest reader limits n1
          cases hre : get_aggs_with_segment_accessor_and_validate rest reader
              limits n1 with
          | error e =>
              rw [hre] at hrest
              simp only [Except.isOk, Except.toBool] at hrest ⊢
              rw [hx.1, hx.2]
              simp only [Bool.false_or]
              exact hrest
          | ok p2 =>
              rw [hre] at hrest
              obtain ⟨t1, n3⟩ := p2
              simp only [Except.isOk, Except.toBool] at hrest ⊢
              rw [hx.1, hx.2]
              simp only [Bool.false_or]
              exact hrest
termination_by (sizeOf aggs, 0)
decreasing_by
  all_goals simp_wf
  all_goals
    (first
      | omega
      | (have hs := Aggregation.sizeOf_sub_aggregation_lt agg; omega))

end

mutual

/-- Every binder failure at the node level is a storage fault. -/
theorem try_from_agg_error_storage (agg : Aggregation) (sub : Aggregations)
    (reader : SegmentReader) (limits : AggregationLimits) (n : Nat)
    (e : BindError)
    (h : AggregationWithAccessor.try_from_agg agg sub reader limits n =
      .error e) :
    ∃ f, e = .storage f := by
  rw [AggregationWithAccessor.try_from_agg] at h
  cases hr : resolve_accessors agg.agg reader with
  | error e2 =>
      rw [hr] at h
      cases h
      exact ⟨field_of agg.agg, resolve_accessors_error agg.agg reader e hr⟩
  | ok q =>
      rw [hr] at h
      obtain ⟨sd, a, t, a2⟩ := q
      cases hs : get_aggs_with_segment_accessor_and_validate sub reader
          limits n with
      | error e2 =>
          rw [hs] at h
          cases h
          exact get_aggs_error_storage sub reader limits n e hs
      | ok p =>
          rw [hs] at h
          obtain ⟨subt, n1⟩ := p
          cases h
termination_by (sizeOf sub, 1)

/-- Every binder failure at the tree level is a storage fault. -/
theorem get_aggs_error_storage (aggs : Aggregations) (reader : SegmentReader)
    (limits : AggregationLimits) (n : Nat) (e : BindError)
    (h : get_aggs_with_segment_accessor_and_validate aggs reader limits n =
      .error e) :
    ∃ f, e = .storage f :=
  match aggs, h with
  | [], h => by
      rw [get_aggs_with_segment_accessor_and_validate] at h
      cases h
  | (key, agg) :: rest, h => by
      rw [get_aggs_with_segment_accessor_and_validate] at h
      cases htry : AggregationWithAccessor.try_from_agg agg
          agg.sub_aggregation reader limits n with
      | error e2 =>
          rw [htry] at h
          cases h
          exact try_from_agg_error_storage agg agg.sub_aggregation reader
            limits n e htry
      | ok p =>
          rw [htry] at h
          obtain ⟨node, n1⟩ := p
          dsimp only at h
          cases hrest : get_aggs_with_segment_accessor_and_validate rest
              reader limits n1 with
          | error e2 =>
              rw [hrest] at h
              cases h
              exact get_aggs_error_storage rest reader limits n1 e hrest
          | ok p2 =>
              rw [hrest] at h
              obtain ⟨t1, n3⟩ := p2
              cases h
termination_by (sizeOf aggs, 0)
decreasing_by
  all_goals simp_wf
  all_goals
    (first
      | omega
      | (have hs := Aggregation.sizeOf_sub_aggregation_lt agg; omega))

end

/-! ### Guard freshness -/

mutual

/-- Guard ids of a bound node lie in the consumed id range and are
pairwise distinct. -/
theorem try_from_agg_guard_inv (agg : Aggregation) (sub : Aggregations)
    (reader : SegmentReader) (limits : AggregationLimits) (n : Nat)
    (node : AggregationWithAccessor) (n2 : Nat)
    (h : AggregationWithAccessor.try_from_agg agg sub reader limits n =
      .ok (node, n2)) :
    n ≤ n2 ∧ (∀ i ∈ guard_ids node, n ≤ i ∧ i < n2) ∧
      (guard_ids node).Nodup := by
  rw [AggregationWithAccessor.try_from_agg] at h
  cases hr : resolve_accessors agg.agg reader with
  | error e => rw [hr] at h; cases h
  | ok q =>
      rw [hr] at h
      obtain ⟨sd, a, t, a2⟩ := q
      cases hs : get_aggs_with_segment_accessor_and_validate sub reader
          limits n with
      | error e => rw [hs] at h; cases h
      | ok p =>
          rw [hs] at h
          obtain ⟨subt, n1⟩ := p
          cases h
          obtain ⟨hle, hmem, hnd⟩ :=
            get_aggs_guard_inv sub reader limits n subt n1 hs
          rw [guard_ids]
          refine ⟨?_, ?_, ?_⟩
          · show n ≤ n1 + 1
            omega
          · intro i hi
            rcases List.mem_cons.mp hi with hi | hi
            · show n ≤ i ∧ i < n1 + 1
              have : i = n1 := hi
              omega
            · have := hmem i hi
              show n ≤ i ∧ i < n1 + 1
              omega
          · rw [List.nodup_cons]
            refine ⟨?_, hnd⟩
            intro hmem2
            have := hmem _ hmem2
            simp [AggregationLimits.new_guard] at this
termination_by (sizeOf sub, 1)

/-- Guard ids of a bound tree lie in the consumed id range and are
pairwise distinct. -/
theorem get_aggs_guard_inv (aggs : Aggregations) (reader : SegmentReader)
    (limits : AggregationLimits) (n : Nat) (t : AggregationsWithAccessor)
    (n2 : Nat)
    (h : get_aggs_with_segment_accessor_and_validate aggs reader limits n =
      .ok (t, n2)) :
    n ≤ n2 ∧ (∀ i ∈ guard_ids_list t.aggs, n ≤ i ∧ i < n2) ∧
      (guard_ids_list t.aggs).Nodup :=
  match aggs, h with
  | [], h => by
      rw [get_aggs_with_segment_accessor_and_validate] at h
      cases h
      refine ⟨Nat.le_refl n, ?_, ?_⟩ <;>
        simp [guard_ids_list, AggregationsWithAccessor.from_data]
  | (key, agg) :: rest, h => by
      rw [get_aggs_with_segment_accessor_and_validate] at h
      cases htry : AggregationWithAccessor.try_from_agg agg
          agg.sub_aggregation reader limits n with
      | error e => rw [htry] at h; cases h
      | ok p =>
          rw [htry] at h
          obtain ⟨node, n1⟩ := p
          dsimp only at h
          cases hrest : get_aggs_with_segment_accessor_and_validate rest
              reader limits n1 with
          | error e => rw [hrest] at h; cases h
          | ok p2 =>
              rw [hrest] at h
              obtain ⟨t1, n3⟩ := p2
              cases h
              obtain ⟨hle1, hmem1, hnd1⟩ :=
                try_from_agg_guard_inv agg agg.sub_aggregation reader limits
                  n node n1 htry
              obtain ⟨hle2, hmem2, hnd2⟩ :=
                get_aggs_guard_inv rest reader limits n1 t1 _ hrest
              show n ≤ n2 ∧
                (∀ i ∈ guard_ids_list ((key, node) :: t1.aggs),
                  n ≤ i ∧ i < n2) ∧
                (guard_ids_list ((key, node) :: t1.aggs)).Nodup
              rw [guard_ids_list]
              refine ⟨by omega, ?_, ?_⟩
              · intro i hi
                rcases List.mem_append.mp hi with hi | hi
                · have := hmem1 i hi
                  omega
                · have := hmem2 i hi
                  omega
              · rw [List.nodup_append]
                refine ⟨hnd1, hnd2, ?_⟩
                intro i hi1 hi2
                have h1 := hmem1 i hi1
                have h2 := hmem2 i hi2
                omega
termination_by (sizeOf aggs, 0)
decreasing_by
  all_goals simp_wf
  all_goals
    (first
      | omega
      | (have hs := Aggregation.sizeOf_sub_aggregation_lt agg; omega))

end

/-- A bound node with a primary accessor only, for concrete checks. -/
def sample_node : AggregationWithAccessor :=
  ⟨⟨[[1]]⟩, none, ColumnType.U64, none, [], ⟨0, 100, 10, 0⟩, ⟨[]⟩, avg_price⟩

/-! ### Claims -/

/-- Claim C1, counterexample: binding a terms aggregation against a segment
where the all-columns resolver returns two columns does NOT take the first
element as primary: the resolver returns the I64 column first, yet the
bound node's primary accessor and type are the second (string) column,
because `Vec::pop` removes from the end. -/
theorem claim_C1_counterexample :
    get_all_ff_reader_or_empty reader_two_cols "color"
        (some terms_allowed_column_types) =
      .ok [(⟨[[1]]⟩, ColumnType.I64), (⟨[[0]]⟩, ColumnType.Str)] ∧
    (AggregationWithAccessor.try_from_agg terms_color [] reader_two_cols
        limits_sample 0).map (fun p => (p.1.accessor, p.1.field_type)) =
      .ok (⟨[[0]]⟩, ColumnType.Str) ∧
    ((⟨[[0]]⟩ : Column), ColumnType.Str) ≠
      ((⟨[[1]]⟩ : Column), ColumnType.I64) := by
  refine ⟨?_, ?_, by decide⟩
  · simp [get_all_ff_reader_or_empty, u64_lenient_for_type_all,
      reader_two_cols, column_matches, terms_allowed_column_types]
  · simp [AggregationWithAccessor.try_from_agg,
      get_aggs_with_segment_accessor_and_validate, resolve_accessors,
      terms_color, str_dict_lookup, get_all_ff_reader_or_empty,
      u64_lenient_for_type_all, reader_two_cols, column_matches,
      terms_allowed_column_types, AggregationLimits.new_guard, Except.map]

/-- Claim C1, amended: for a terms aggregation bound against a segment
where the all-columns resolver returns a list of matching columns, the
bound node's primary accessor and type are the LAST element of that list
and the secondary accessor (when the list has two or more elements) is the
SECOND-TO-LAST element; any columns before the last two are ignored. -/
theorem claim_C1 (agg : Aggregation) (sub : Aggregations)
    (reader : SegmentReader) (limits : AggregationLimits) (n : Nat)
    (tm : TermsAggregation) (hterms : agg.agg = .Terms tm)
    (sd : Option StrColumn) (hsd : str_dict_lookup reader tm.field = .ok sd)
    (cols : List (Column × ColumnType))
    (hall : get_all_ff_reader_or_empty reader tm.field
      (some terms_allowed_column_types) = .ok cols)
    (lastCol : Column × ColumnType) (hlast : cols.getLast? = some lastCol)
    (subt : AggregationsWithAccessor) (n1 : Nat)
    (hsub : get_aggs_with_segment_accessor_and_validate sub reader limits n =
      .ok (subt, n1)) :
    (AggregationWithAccessor.try_from_agg agg sub reader limits n).map
        (fun p => (p.1.accessor, p.1.field_type, p.1.accessor2)) =
      .ok (lastCol.1, lastCol.2, cols.dropLast.getLast?) := by
  rw [AggregationWithAccessor.try_from_agg, hterms,
    resolve_accessors_eq_terms, hsd]
  dsimp only
  rw [hall]
  dsimp only
  rw [hlast]
  dsimp only
  rw [hsub]
  dsimp only
  simp [Except.map]

/-- Claim C1, witness: on the two-column segment the bound primary is the
string column (last in resolver order) and the secondary is the I64 one. -/
theorem claim_C1_witness :
    (AggregationWithAccessor.try_from_agg terms_color [] reader_two_cols
        limits_sample 0).map
        (fun p => (p.1.accessor, p.1.field_type, p.1.accessor2)) =
      .ok ((⟨[[0]]⟩ : Column), ColumnType.Str,
        some ((⟨[[1]]⟩ : Column), ColumnType.I64)) := by
  have hsd : str_dict_lookup reader_two_cols "color" =
      .ok (some ⟨["red"]⟩) := by
    simp [str_dict_lookup, reader_two_cols]
  have hall : get_all_ff_reader_or_empty reader_two_cols "color"
      (some terms_allowed_column_types) =
      .ok [(⟨[[1]]⟩, ColumnType.I64), (⟨[[0]]⟩, ColumnType.Str)] := by
    simp [get_all_ff_reader_or_empty, u64_lenient_for_type_all,
      reader_two_cols, column_matches, terms_allowed_column_types]
  have hsub : get_aggs_with_segment_accessor_and_validate [] reader_two_cols
      limits_sample 0 = .ok (AggregationsWithAccessor.from_data [], 0) := by
    rw [get_aggs_with_segment_accessor_and_validate]
  have h := claim_C1 terms_color [] reader_two_cols limits_sample 0
    ⟨"color"⟩ rfl (some ⟨["red"]⟩) hsd
    [(⟨[[1]]⟩, ColumnType.I64), (⟨[[0]]⟩, ColumnType.Str)] hall
    (⟨[[0]]⟩, ColumnType.Str) rfl
    (AggregationsWithAccessor.from_data []) 0 hsub
  simpa using h

/-- Claim C2: a successful bind produces a Bound Tree whose structure is
isomorphic to the request tree at every nesting level — same names, same
declaration order, with each node's sub-tree recursively bound from that
request's sub-aggregations. -/
theorem claim_C2 (aggs : Aggregations) (reader : SegmentReader)
    (limits : AggregationLimits) (n : Nat) (t : AggregationsWithAccessor)
    (n2 : Nat)
    (h : get_aggs_with_segment_accessor_and_validate aggs reader limits n =
      .ok (t, n2)) :
    bound_shape_list t.aggs = req_shape_list aggs :=
  get_aggs_shape_eq aggs reader limits n t n2 h

/-- Claim C2, witness: the two-level sample request tree binds to a tree of
the same name shape. -/
theorem claim_C2_witness :
    (get_aggs_with_segment_accessor_and_validate nested_req reader_two_cols
        limits_sample 0).map (fun p => bound_shape_list p.1.aggs) =
      .ok (req_shape_list nested_req) := by
  cases hh : get_aggs_with_segment_accessor_and_validate nested_req
      reader_two_cols limits_sample 0 with
  | error e =>
      have hok := get_aggs_isOk nested_req reader_two_cols limits_sample 0
      rw [hh] at hok
      simp only [Except.isOk, Except.toBool] at hok
      revert hok
      simp [nested_req, tree_storage_error_list, tree_storage_error,
        variant_storage_error, is_terms, field_of, reader_two_cols]
  | ok p =>
      obtain ⟨t, n2⟩ := p
      simp only [Except.map]
      rw [claim_C2 nested_req reader_two_cols limits_sample 0 t n2 hh]

/-- Claim C3: for every aggregation whose named field has no matching
column in the segment (absent, or present only under unsupported physical
types), binding succeeds without error and the node's primary accessor is a
synthesized empty column whose length equals the segment's document count,
reporting no value for every document. -/
theorem claim_C3 (agg : Aggregation) (sub : Aggregations)
    (reader : SegmentReader) (limits : AggregationLimits) (n : Nat)
    (subt : AggregationsWithAccessor) (n1 : Nat)
    (hsub : get_aggs_with_segment_accessor_and_validate sub reader limits n =
      .ok (subt, n1))
    (hce : field_of agg.agg ∉ reader.column_errors)
    (hse : field_of agg.agg ∉ reader.str_errors)
    (hmiss : reader.columns.filter
      (column_matches (field_of agg.agg)
        (some (allowed_types_of agg.agg))) = []) :
    (AggregationWithAccessor.try_from_agg agg sub reader limits n).map
        (fun p => p.1.accessor) =
      .ok (Column.build_empty_column reader.num_docs) ∧
    ∀ node n2,
      AggregationWithAccessor.try_from_agg agg sub reader limits n =
        .ok (node, n2) →
      node.accessor.num_docs = reader.num_docs ∧
      ∀ doc, node.accessor.values_for_doc doc = [] := by
  obtain ⟨sd, hres, -⟩ :=
    resolve_accessors_missing agg.agg reader hce hse hmiss
  rw [AggregationWithAccessor.try_from_agg, hres]
  dsimp only
  rw [hsub]
  dsimp only
  constructor
  · simp [Except.map]
  · intro node n2 heq
    cases heq
    exact ⟨build_empty_column_num_docs reader.num_docs,
      fun doc => build_empty_column_values reader.num_docs doc⟩

/-- Claim C3, witness: an average aggregation on the ten-document segment
with no columns binds to the empty column of length ten. -/
theorem claim_C3_witness :
    (AggregationWithAccessor.try_from_agg avg_price [] reader_empty10
        limits_sample 0).map (fun p => p.1.accessor) =
      .ok (Column.build_empty_column 10) ∧
    ∀ node n2,
      AggregationWithAccessor.try_from_agg avg_price [] reader_empty10
          limits_sample 0 = .ok (node, n2) →
      node.accessor.num_docs = 10 ∧
      ∀ doc, node.accessor.values_for_doc doc = [] := by
  have h := claim_C3 avg_price [] reader_empty10 limits_sample 0
    (AggregationsWithAccessor.from_data []) 0
    (by rw [get_aggs_with_segment_accessor_and_validate])
    (by decide) (by decide) (by decide)
  simpa [reader_empty10] using h

/-- Claim C4: `swap_accessor` is an involution — applying it twice restores
the node exactly, in particular its (primary accessor, primary type,
secondary accessor, secondary type). -/
theorem claim_C4 (s : AggregationWithAccessor) :
    s.swap_accessor.swap_accessor = s := by
  cases s with
  | mk a sd t a2 sub lim cba agg => cases a2 <;> rfl

/-- Claim C5: when the secondary accessor is absent, one `swap_accessor`
call leaves the entire node unchanged. -/
theorem claim_C5 (s : AggregationWithAccessor) (h : s.accessor2 = none) :
    s.swap_accessor = s := by
  simp only [AggregationWithAccessor.swap_accessor, h]

/-- Claim C5, witness: swapping the sample node without a secondary
accessor changes nothing. -/
theorem claim_C5_witness :
    sample_node.accessor2 = none ∧
      sample_node.swap_accessor = sample_node :=
  ⟨rfl, claim_C5 sample_node rfl⟩

/-- Claim C6: bind fails exactly when some field resolution in the tree
hits a storage-layer error (so absence of a field is never an error), and
every bind failure is a storage error of some field; by the `Except`
result type no partial tree is ever produced alongside an error. -/
theorem claim_C6 (aggs : Aggregations) (reader : SegmentReader)
    (limits : AggregationLimits) (n : Nat) :
    ((get_aggs_with_segment_accessor_and_validate aggs reader limits
        n).isOk = !tree_storage_error_list reader aggs) ∧
    ∀ e,
      get_aggs_with_segment_accessor_and_validate aggs reader limits n =
        .error e →
      ∃ f, e = .storage f :=
  ⟨get_aggs_isOk aggs reader limits n,
    fun e h => get_aggs_error_storage aggs reader limits n e h⟩

/-- Claim C6, witness: on the segment whose "price" column lookup faults,
binding the sample tree fails with that storage error. -/
theorem claim_C6_witness :
    tree_storage_error_list reader_err nested_req = true ∧
    (get_aggs_with_segment_accessor_and_validate nested_req reader_err
        limits_sample 0).isOk = false ∧
    ∃ f, BindError.storage "price" = BindError.storage f := by
  have ht : tree_storage_error_list reader_err nested_req = true := by
    simp [nested_req, tree_storage_error_list, tree_storage_error,
      variant_storage_error, is_terms, field_of, reader_err]
  have herr : get_aggs_with_segment_accessor_and_validate nested_req
      reader_err limits_sample 0 = .error (BindError.storage "price") := by
    simp [nested_req, get_aggs_with_segment_accessor_and_validate,
      AggregationWithAccessor.try_from_agg, resolve_accessors,
      str_dict_lookup, get_all_ff_reader_or_empty, get_ff_reader,
      u64_lenient_for_type, u64_lenient_for_type_all, reader_err,
      column_matches, terms_allowed_column_types,
      get_numeric_or_date_column_types, AggregationLimits.new_guard]
  refine ⟨ht, ?_, (claim_C6 nested_req reader_err limits_sample 0).2 _ herr⟩
  rw [(claim_C6 nested_req reader_err limits_sample 0).1, ht]
  rfl

/-- Claim C7: the all-columns resolver always returns a non-empty list on
success, and consequently the unchecked `unwrap` in the terms branch never
fails: binding never reports the unwrap panic. -/
theorem claim_C7 :
    (∀ (reader : SegmentReader) (field : String)
        (allowed : Option (List ColumnType))
        (l : List (Column × ColumnType)),
      get_all_ff_reader_or_empty reader field allowed = .ok l → l ≠ []) ∧
    ∀ (agg : Aggregation) (sub : Aggregations) (reader : SegmentReader)
        (limits : AggregationLimits) (n : Nat),
      AggregationWithAccessor.try_from_agg agg sub reader limits n ≠
        .error .unwrapNone := by
  constructor
  · exact fun reader field allowed l h =>
      get_all_ne_nil reader field allowed l h
  · intro agg sub reader limits n hcon
    obtain ⟨f, hf⟩ :=
      try_from_agg_error_storage agg sub reader limits n _ hcon
    cases hf

/-- Claim C7, witness: on the empty ten-document segment the resolver
substitutes one empty column, and the terms bind does not panic. -/
theorem claim_C7_witness :
    ([(Column.build_empty_column 10, ColumnType.U64)] :
        List (Column × ColumnType)) ≠ [] ∧
    AggregationWithAccessor.try_from_agg terms_color [] reader_empty10
        limits_sample 0 ≠ .error .unwrapNone := by
  constructor
  · apply claim_C7.1 reader_empty10 "color" (some terms_allowed_column_types)
    simp [get_all_ff_reader_or_empty, u64_lenient_for_type_all,
      reader_empty10, column_matches]
  · exact claim_C7.2 terms_color [] reader_empty10 limits_sample 0

/-- Claim C8: the non-terms kinds resolve a single column restricted to
exactly the numeric-or-date set {F64, U64, I64, DateTime}; terms restricts
the all-columns resolver to exactly {I64, U64, F64, Str}; and every bound
type tag lies in the kind's allowed set. -/
theorem claim_C8 :
    (∀ ty, ty ∈ get_numeric_or_date_column_types ↔
      ty ∈ spec_numeric_or_date_types) ∧
    (∀ ty, ty ∈ terms_allowed_column_types ↔ ty ∈ spec_terms_types) ∧
    (∀ v, is_terms v = false →
      allowed_types_of v = get_numeric_or_date_column_types) ∧
    (∀ v, is_terms v = true →
      allowed_types_of v = terms_allowed_column_types) ∧
    ∀ (v : AggregationVariants) (reader : SegmentReader) q,
      resolve_accessors v reader = .ok q →
      q.2.2.1 ∈ allowed_types_of v := by
  refine ⟨fun ty => Iff.rfl, fun ty => Iff.rfl, ?_, ?_, ?_⟩
  · intro v hv
    simp [allowed_types_of, hv]
  · intro v hv
    simp [allowed_types_of, hv]
  · exact fun v reader q h => resolve_accessors_type_mem v reader q h

/-- Claim C8, witness: a range aggregation on a missing field resolves to
the default `U64`, which belongs to the numeric-or-date allowed set. -/
theorem claim_C8_witness :
    resolve_accessors (.Range ⟨"price"⟩) reader_empty10 =
      .ok (none, Column.build_empty_column 10, ColumnType.U64, none) ∧
    ColumnType.U64 ∈ allowed_types_of (.Range ⟨"price"⟩) := by
  have hres : resolve_accessors (.Range ⟨"price"⟩) reader_empty10 =
      .ok (none, Column.build_empty_column 10, ColumnType.U64, none) := by
    simp [resolve_accessors, get_ff_reader, u64_lenient_for_type,
      u64_lenient_for_type_all, reader_empty10, column_matches]
  exact ⟨hres, claim_C8.2.2.2.2 _ reader_empty10 _ hres⟩

/-- Claim C9: guard ids inside one bound tree are pairwise distinct; two
trees bound from consecutive allocation states share no guard id; and
updating the guard at one id leaves every other id's guard unchanged. -/
theorem claim_C9 (aggs1 aggs2 : Aggregations) (r1 r2 : SegmentReader)
    (limits : AggregationLimits) (n : Nat) (t1 t2 : AggregationsWithAccessor)
    (n1 n2 : Nat)
    (h1 : get_aggs_with_segment_accessor_and_validate aggs1 r1 limits n =
      .ok (t1, n1))
    (h2 : get_aggs_with_segment_accessor_and_validate aggs2 r2 limits n1 =
      .ok (t2, n2)) :
    (guard_ids_list t1.aggs).Nodup ∧ (guard_ids_list t2.aggs).Nodup ∧
    (∀ i ∈ guard_ids_list t1.aggs, ∀ j ∈ guard_ids_list t2.aggs, i ≠ j) ∧
    ∀ (store : Nat → ResourceLimitGuard) (i j : Nat) (amount : Nat),
      i ≠ j →
      Function.update store i ((store i).add_memory amount) j = store j := by
  obtain ⟨hle1, hmem1, hnd1⟩ := get_aggs_guard_inv aggs1 r1 limits n t1 n1 h1
  obtain ⟨hle2, hmem2, hnd2⟩ :=
    get_aggs_guard_inv aggs2 r2 limits n1 t2 n2 h2
  refine ⟨hnd1, hnd2, ?_, ?_⟩
  · intro i hi j hj
    have hi2 := hmem1 i hi
    have hj2 := hmem2 j hj
    omega
  · intro store i j amount hij
    exact Function.update_noteq (Ne.symm hij) _ _

/-- Claim C9, witness: binding the sample tree against two segments in
sequence yields trees with internally distinct and mutually disjoint guard
ids. -/
theorem claim_C9_witness :
    (get_aggs_with_segment_accessor_and_validate nested_req reader_two_cols
        limits_sample 0).map
      (fun p1 =>
        (get_aggs_with_segment_accessor_and_validate nested_req
            reader_empty10 limits_sample p1.2).map
          (fun p2 =>
            decide ((guard_ids_list p1.1.aggs).Nodup) &&
            decide (∀ i ∈ guard_ids_list p1.1.aggs,
              ∀ j ∈ guard_ids_list p2.1.aggs, i ≠ j))) =
      .ok (.ok true) := by
  cases h1 : get_aggs_with_segment_accessor_and_validate nested_req
      reader_two_cols limits_sample 0 with
  | error e =>
      have hok := get_aggs_isOk nested_req reader_two_cols limits_sample 0
      rw [h1] at hok
      simp only [Except.isOk, Except.toBool] at hok
      revert hok
      simp [nested_req, tree_storage_error_list, tree_storage_error,
        variant_storage_error, is_terms, field_of, reader_two_cols]
  | ok p1 =>
      obtain ⟨t1, m1⟩ := p1
      rw [except_map_ok]
      dsimp only
      cases h2 : get_aggs_with_segment_accessor_and_validate nested_req
          reader_empty10 limits_sample m1 with
      | error e =>
          have hok := get_aggs_isOk nested_req reader_empty10 limits_sample m1
          rw [h2] at hok
          simp only [Except.isOk, Except.toBool] at hok
          revert hok
          simp [nested_req, tree_storage_error_list, tree_storage_error,
            variant_storage_error, is_terms, field_of, reader_empty10]
      | ok p2 =>
          obtain ⟨t2, m2⟩ := p2
          obtain ⟨hnd1, hnd2, hdisj, hupd⟩ := claim_C9 nested_req nested_req
            reader_two_cols reader_empty10 limits_sample 0 t1 t2 m1 m2 h1 h2
          rw [except_map_ok]
          dsimp only
          rw [decide_eq_true hnd1, decide_eq_true hdisj]
          rfl

/-- Claim C10: whenever a synthesized empty column is substituted for a
missing or unsupported field, its value-type tag is `U64`, for every
aggregation kind, terms included. -/
theorem claim_C10 (agg : Aggregation) (sub : Aggregations)
    (reader : SegmentReader) (limits : AggregationLimits) (n : Nat)
    (subt : AggregationsWithAccessor) (n1 : Nat)
    (hsub : get_aggs_with_segment_accessor_and_validate sub reader limits n =
      .ok (subt, n1))
    (hce : field_of agg.agg ∉ reader.column_errors)
    (hse : field_of agg.agg ∉ reader.str_errors)
    (hmiss : reader.columns.filter
      (column_matches (field_of agg.agg)
        (some (allowed_types_of agg.agg))) = []) :
    (AggregationWithAccessor.try_from_agg agg sub reader limits n).map
        (fun p => p.1.field_type) = .ok ColumnType.U64 := by
  obtain ⟨sd, hres, -⟩ :=
    resolve_accessors_missing agg.agg reader hce hse hmiss
  rw [AggregationWithAccessor.try_from_agg, hres]
  dsimp only
  rw [hsub]
  dsimp only
  simp [Except.map]

/-- Claim C10, witness: a terms aggregation on a missing field binds with
the numeric `U64` type tag, not a string tag. -/
theorem claim_C10_witness :
    (AggregationWithAccessor.try_from_agg terms_color [] reader_empty10
        limits_sample 0).map (fun p => p.1.field_type) =
      .ok ColumnType.U64 :=
  claim_C10 terms_color [] reader_empty10 limits_sample 0
    (AggregationsWithAccessor.from_data []) 0
    (by rw [get_aggs_with_segment_accessor_and_validate])
    (by decide) (by decide) (by decide)

end TantivyAgg
